import Mathlib

/-!
Verification development for the YouTube Telegram bot (`src/bot.js`).

The embedding models the format-selection and acquisition pipeline:

* `Fmt` is the shape of one entry of `info.formats` (a yt-dlp format
  descriptor) with exactly the fields the code reads.
* `selectFormat` is the variant-selection logic inlined in
  `handleSingleVideo` / `handlePlaylist`: first combined 720p match, else
  first video-only 720p match plus the best qualifying audio-only format.
* `handleSingleVideo` models the single-video pipeline over an explicit
  filesystem state (a list of `(path, size)` entries) and an oracle `Env`
  describing the outcomes of the external collaborators (youtube-dl
  downloads, the ffmpeg merge, and the on-disk sizes they produce).
* `handlePlaylist` models the batch loop: truncation to
  `MAX_PLAYLIST_VIDEOS`, per-item processing with per-item failure
  isolation, the final zip, and the zip-size gate.
-/

/-- Maximum Telegram upload size from `bot.js`: `200 * 1024 * 1024`. -/
def MAX_SIZE : Nat := 200 * 1024 * 1024

/-- Playlist cap from `bot.js`: at most 10 playlist videos are processed. -/
def MAX_PLAYLIST_VIDEOS : Nat := 10

/-- One yt-dlp format descriptor, with the fields `bot.js` reads.
`none` models a JS field that is `undefined`/absent.  `acodec`/`vcodec`
are strings in the JSON; the code only ever compares them to `'none'`. -/
structure Fmt where
  format_id : String
  ext : String
  height : Option Nat
  acodec : Option String
  vcodec : Option String
  filesize : Option Nat
  filesize_approx : Option Nat
  abr : Option Nat
  bitrate : Option Nat
deriving DecidableEq, Repr

/-- JS truthiness chain `a || b || 0` on optional numbers: `0` and
`undefined` are falsy, so the first present non-zero value wins and the
default is `0`. -/
def jsOrNat (a b : Option Nat) : Nat :=
  match a with
  | some n => if n = 0 then (match b with | some m => m | none => 0) else n
  | none => match b with | some m => m | none => 0

/-- Effective size used everywhere in `bot.js`:
`(f.filesize || f.filesize_approx) || 0`. -/
def effSize (f : Fmt) : Nat := jsOrNat f.filesize f.filesize_approx

/-- Audio ranking key from the sort comparator:
`b.abr || b.bitrate || 0`. -/
def audioRank (f : Fmt) : Nat := jsOrNat f.abr f.bitrate

/-- Size-cap test `((f.filesize || f.filesize_approx) || 0) <= maxSize`. -/
def sizeOk (maxSize : Nat) (f : Fmt) : Bool := decide (effSize f ≤ maxSize)

/-- Container/height/codec part of the combined-720p predicate:
`(f.ext === 'mp4' || f.ext === 'webm') && f.height === 720 &&
f.acodec !== 'none' && f.vcodec !== 'none'`. -/
def combinedBase (f : Fmt) : Bool :=
  (f.ext == "mp4" || f.ext == "webm") && f.height == some 720 &&
    f.acodec != some "none" && f.vcodec != some "none"

/-- The combined-720p predicate passed to `info.formats.find` in
`handleSingleVideo` and `handlePlaylist`, including the size cap. -/
def combinedOk (maxSize : Nat) (f : Fmt) : Bool :=
  combinedBase f && sizeOk maxSize f

/-- Container/height/codec part of the video-only predicate:
`(f.ext === 'mp4' || f.ext === 'webm') && f.height === 720 &&
f.acodec === 'none' && f.vcodec !== 'none'`. -/
def videoOnlyBase (f : Fmt) : Bool :=
  (f.ext == "mp4" || f.ext == "webm") && f.height == some 720 &&
    f.acodec == some "none" && f.vcodec != some "none"

/-- The video-only-720p predicate including the size cap. -/
def videoOnlyOk (maxSize : Nat) (f : Fmt) : Bool :=
  videoOnlyBase f && sizeOk maxSize f

/-- Container/codec part of the audio-candidate filter:
`f.acodec !== 'none' && f.vcodec === 'none' &&
(f.ext === 'mp4' || f.ext === 'webm' || f.ext === 'm4a')`. -/
def audioBase (f : Fmt) : Bool :=
  f.acodec != some "none" && f.vcodec == some "none" &&
    (f.ext == "mp4" || f.ext == "webm" || f.ext == "m4a")

/-- The audio-candidate predicate passed to `info.formats.filter`,
including the size cap. -/
def audioOk (maxSize : Nat) (f : Fmt) : Bool :=
  audioBase f && sizeOk maxSize f

/-- First element attaining the maximal key, ties broken towards the
earlier element.  This models
`candidates.sort((a, b) => (b.abr || b.bitrate || 0) - (a.abr || a.bitrate || 0))[0]`:
`Array.prototype.sort` is stable (ES2019), so the head of the
descending-sorted array is the first element of maximal rank. -/
def firstMaxBy {α : Type} (key : α → Nat) : List α → Option α
  | [] => none
  | x :: xs =>
    match firstMaxBy key xs with
    | none => some x
    | some y => if key x < key y then some y else some x

/-- Result of variant selection, per the spec's `SelectionResult`. -/
inductive SelectionResult where
  | Combined (f : Fmt)
  | SplitPair (v a : Fmt)
  | NoneFound (reason : String)
deriving DecidableEq, Repr

/-- The variant-selection logic of `handleSingleVideo` (also repeated per
item in `handlePlaylist`): first combined-720p match via `find`, else
first video-only-720p match via `find` plus the best audio candidate;
either missing piece aborts with the corresponding user notice. -/
def selectFormat (maxSize : Nat) (formats : List Fmt) : SelectionResult :=
  match formats.find? (combinedOk maxSize) with
  | some c => .Combined c
  | none =>
    match formats.find? (videoOnlyOk maxSize) with
    | none => .NoneFound "no suitable video-only 720p format under size limit found"
    | some v =>
      match firstMaxBy audioRank (formats.filter (audioOk maxSize)) with
      | none => .NoneFound "no suitable audio-only format under size limit found"
      | some a => .SplitPair v a

/-- Descriptor carries an audio stream, in the code's terms:
`f.acodec !== 'none'` (the spec's `hasAudio`). -/
def hasAudioF (f : Fmt) : Bool := f.acodec != some "none"

/-- Descriptor carries a video stream, in the code's terms:
`f.vcodec !== 'none'` (the spec's `hasVideo`). -/
def hasVideoF (f : Fmt) : Bool := f.vcodec != some "none"

/-!
Filesystem model.  The state is the list of files that currently exist,
as `(path, size)` pairs.  `path.resolve(__dirname, name)` prefixes every
single-video path with the same process-wide constant directory, so the
prefix is dropped and paths are the bare file names.
-/

/-- Existing files: each entry is a path together with its on-disk size. -/
abbrev FS := List (String × Nat)

/-- Creating/overwriting a file of the given size at a path. -/
def fsWrite (fs : FS) (p : String) (n : Nat) : FS :=
  (p, n) :: fs.filter (fun e => e.1 ≠ p)

/-- The `cleanupFile` helper of `bot.js`: `fs.unlink`, swallowing
`ENOENT` (deleting an absent file leaves the state unchanged). -/
def fsUnlink (fs : FS) (p : String) : FS :=
  fs.filter (fun e => e.1 ≠ p)

/-- The `fs.stat(path).size` call: the size of the file at `p`, or
`none` when no such file exists (the stat throws). -/
def fsStat (fs : FS) (p : String) : Option Nat :=
  (fs.find? (fun e => e.1 == p)).map (fun e => e.2)

/-- Whether a file currently exists at `p`. -/
def fsHas (fs : FS) (p : String) : Bool :=
  fs.any (fun e => e.1 == p)

/-!
Path derivations of `handleSingleVideo` (lines 78 and 133–135).  All of
them depend only on the sanitized title and the chosen descriptors.
-/

/-- Output path of the combined branch:
`${safeTitle}_${combined.format_id}.${combined.ext}`. -/
def combinedOutputPath (safeTitle : String) (c : Fmt) : String :=
  safeTitle ++ "_" ++ c.format_id ++ "." ++ c.ext

/-- Path of the downloaded video-only part: `${safeTitle}_video.${ext}`. -/
def videoPartPath (safeTitle : String) (v : Fmt) : String :=
  safeTitle ++ "_video." ++ v.ext

/-- Path of the downloaded audio-only part: `${safeTitle}_audio.${ext}`. -/
def audioPartPath (safeTitle : String) (a : Fmt) : String :=
  safeTitle ++ "_audio." ++ a.ext

/-- Path of the ffmpeg merge output: `${safeTitle}_720p_merged.mp4`. -/
def mergedOutputPath (safeTitle : String) : String :=
  safeTitle ++ "_720p_merged.mp4"

/-- Zip path of `handlePlaylist`: `${safeTitle}.zip`. -/
def zipPath (safeTitle : String) : String :=
  safeTitle ++ ".zip"

/-- Oracle for the external collaborators of one single-video run: does
each youtube-dl download succeed, does the ffmpeg merge succeed, and what
size does each produced file have on disk. -/
structure Env where
  combinedDlOk : Bool
  combinedDiskSize : Nat
  videoDlOk : Bool
  videoPartSize : Nat
  audioDlOk : Bool
  audioPartSize : Nat
  mergeOk : Bool
  mergedDiskSize : Nat
deriving DecidableEq, Repr

/-- Observable outcome of one `handleSingleVideo` run: which terminal
user notification was produced.  `delivered p` means `bot.sendVideo` was
invoked with path `p`; every other constructor means delivery was not
invoked.  `fetchThrown` models an exception escaping to the caller's
catch-all (the combined-branch download has no local try/catch). -/
inductive SingleOutcome where
  | delivered (p : String)
  | oversize
  | statError
  | noFormat (reason : String)
  | downloadOrMergeError
  | fetchThrown
deriving DecidableEq, Repr

/-- The `finally` block of the split-pair branch: `cleanupFile` on the
video part, the audio part, and the merged output, in that order. -/
def cleanupSplit (fs : FS) (safeTitle : String) (v a : Fmt) : FS :=
  fsUnlink (fsUnlink (fsUnlink fs (videoPartPath safeTitle v))
    (audioPartPath safeTitle a)) (mergedOutputPath safeTitle)

/-- The single-video pipeline of `bot.js`, over the filesystem state and
the collaborator oracle.  Mirrors `handleSingleVideo`: select a format;
combined branch downloads, stats, applies the strict `> MAX_SIZE` gate,
sends, and runs `cleanupFile(outputPath)`; the split branch downloads
the two parts, merges, stats, gates, sends, with the three `cleanupFile`
calls in a `finally` so they also run on a download or merge failure.
Selection failures return before any file is written. -/
def handleSingleVideo (env : Env) (safeTitle : String) (formats : List Fmt)
    (fs : FS) : SingleOutcome × FS :=
  match selectFormat MAX_SIZE formats with
  | .NoneFound r => (.noFormat r, fs)
  | .Combined c =>
    let outputPath := combinedOutputPath safeTitle c
    if env.combinedDlOk then
      let fs1 := fsWrite fs outputPath env.combinedDiskSize
      match fsStat fs1 outputPath with
      | some sz =>
        if sz > MAX_SIZE then (.oversize, fsUnlink fs1 outputPath)
        else (.delivered outputPath, fsUnlink fs1 outputPath)
      | none => (.statError, fsUnlink fs1 outputPath)
    else (.fetchThrown, fs)
  | .SplitPair v a =>
    let videoPath := videoPartPath safeTitle v
    let audioPath := audioPartPath safeTitle a
    let outputPath := mergedOutputPath safeTitle
    if env.videoDlOk then
      let fs1 := fsWrite fs videoPath env.videoPartSize
      if env.audioDlOk then
        let fs2 := fsWrite fs1 audioPath env.audioPartSize
        if env.mergeOk then
          let fs3 := fsWrite fs2 outputPath env.mergedDiskSize
          match fsStat fs3 outputPath with
          | some sz =>
            if sz > MAX_SIZE then (.oversize, cleanupSplit fs3 safeTitle v a)
            else (.delivered outputPath, cleanupSplit fs3 safeTitle v a)
          | none => (.downloadOrMergeError, cleanupSplit fs3 safeTitle v a)
        else (.downloadOrMergeError, cleanupSplit fs2 safeTitle v a)
      else (.downloadOrMergeError, cleanupSplit fs1 safeTitle v a)
    else (.downloadOrMergeError, cleanupSplit fs safeTitle v a)

/-!
Playlist model.  `handlePlaylist` fetches per-item metadata, runs the
same selection per item, downloads (and merges when needed) into a fresh
`mkdtemp` directory, collects the successes, and zips them.  The model
captures the control flow and the delivery decisions; the filesystem
effects of the per-item downloads are modelled in the single-video
pipeline above.
-/

/-- Per-item oracle for one playlist entry: the item's sanitized title,
its fetched format catalog, and whether the metadata fetch, the
download(s) and the merge succeed.  `fetchOk = false` models the
per-item `youtubedl(videoUrl, ...)` call throwing. -/
structure ItemEnv where
  title : String
  formats : List Fmt
  fetchOk : Bool
  dlOk : Bool
  mergeOk : Bool
deriving DecidableEq, Repr

/-- One iteration of the `for (const video of entries)` loop: `some p`
when the item survives and contributes the file named `p` to
`downloadedFiles`, `none` when the item is skipped — by a selection
failure (`continue`) or by any thrown fetch/download/merge error, which
the per-item `try/catch` swallows so the loop moves on. -/
def processItem (e : ItemEnv) : Option String :=
  if e.fetchOk then
    match selectFormat MAX_SIZE e.formats with
    | .Combined c =>
      if e.dlOk then some (combinedOutputPath e.title c) else none
    | .SplitPair _ _ =>
      if e.dlOk && e.mergeOk then some (mergedOutputPath e.title) else none
    | .NoneFound _ => none
  else none

/-- The truncation `info.entries.slice(0, MAX_PLAYLIST_VIDEOS)`: only
the first `MAX_PLAYLIST_VIDEOS` entries are ever attempted. -/
def attemptedItems (items : List ItemEnv) : List ItemEnv :=
  items.take MAX_PLAYLIST_VIDEOS

/-- The `downloadedFiles` array after the loop: the surviving items'
output names, in order. -/
def survivors (items : List ItemEnv) : List String :=
  (attemptedItems items).filterMap processItem

/-- Observable outcome of a `handlePlaylist` run.  `sentArchive p` means
`bot.sendDocument` was invoked with the zip at `p`; `totalFailure` is
the "No videos could be downloaded" notification; every constructor
other than `sentArchive` delivers nothing. -/
inductive PlaylistOutcome where
  | totalFailure
  | sentArchive (p : String)
  | zipOversize
  | zipError
deriving DecidableEq, Repr

/-- The playlist pipeline of `bot.js`: attempt the first
`MAX_PLAYLIST_VIDEOS` entries, skip failures, and fail as a whole (no
zip) exactly when nothing survived; otherwise zip, stat, apply the
strict `> MAX_SIZE` gate, and send.  `zipOk` is the oracle for the
`zipFiles` collaborator, `zipSize` the on-disk size of the produced
archive. -/
def handlePlaylist (items : List ItemEnv) (safeTitle : String)
    (zipOk : Bool) (zipSize : Nat) : PlaylistOutcome :=
  let files := survivors items
  if files.length = 0 then .totalFailure
  else if zipOk then
    if zipSize > MAX_SIZE then .zipOversize
    else .sentArchive (zipPath safeTitle)
  else .zipError

/-!
Request-level path derivation, for the concurrent-isolation claim.  A
request is identified by the requesting chat and carries the sanitized
title (`sanitize(info.title || 'video').slice(0, 100)`; the sanitizer is
the external filename-sanitization collaborator, so the model takes the
already-sanitized title).  The paths a single-video pipeline writes are
a function of the title and the catalog only — nothing request-specific
enters them.
-/

/-- One in-flight single-video request: the chat it came from and the
per-request sanitized title. -/
structure Request where
  chatId : Nat
  safeTitle : String
deriving DecidableEq, Repr

/-- The temporary paths a single-video run writes, per the path
derivations on lines 78 and 133–135 of `bot.js`. -/
def singleWrittenPaths (safeTitle : String) (formats : List Fmt) : List String :=
  match selectFormat MAX_SIZE formats with
  | .Combined c => [combinedOutputPath safeTitle c]
  | .SplitPair v a =>
    [videoPartPath safeTitle v, audioPartPath safeTitle a,
      mergedOutputPath safeTitle]
  | .NoneFound _ => []

/-- The paths written on behalf of a request. -/
def requestWrittenPaths (r : Request) (formats : List Fmt) : List String :=
  singleWrittenPaths r.safeTitle formats

/-!
Concrete descriptors used as witnesses and counterexamples.
-/

/-- A combined 720p mp4 descriptor with a small known size. -/
def fmtCombinedA : Fmt :=
  ⟨"22", "mp4", some 720, some "mp4a.40.2", some "avc1.64001F",
    some 1000000, none, none, none⟩

/-- A second qualifying combined 720p descriptor, for the tie-break. -/
def fmtCombinedB : Fmt :=
  ⟨"247", "webm", some 720, some "opus", some "vp9",
    some 2000000, none, none, none⟩

/-- A combined 720p descriptor with entirely unknown size. -/
def fmtUnknownSize : Fmt :=
  ⟨"18", "mp4", some 720, some "mp4a.40.2", some "avc1.42001E",
    none, none, none, none⟩

/-- A qualifying video-only 720p descriptor. -/
def fmtVideoOnly : Fmt :=
  ⟨"136", "mp4", some 720, some "none", some "avc1.4d401f",
    some 3000000, none, none, none⟩

/-- Audio-only descriptor at 64k. -/
def fmtAudio64 : Fmt :=
  ⟨"139", "m4a", none, some "mp4a.40.5", some "none",
    some 400000, none, some 64, none⟩

/-- Audio-only descriptor at 128k. -/
def fmtAudio128 : Fmt :=
  ⟨"140", "m4a", none, some "mp4a.40.2", some "none",
    some 800000, none, some 128, none⟩

/-- Audio-only descriptor at 256k. -/
def fmtAudio256 : Fmt :=
  ⟨"141", "m4a", none, some "mp4a.40.2", some "none",
    some 1600000, none, some 256, none⟩

/-!
Lemmas about `firstMaxBy` and the filesystem model.
-/

/-- The element `firstMaxBy` returns is in the list. -/
theorem firstMaxBy_mem {α : Type} (key : α → Nat) (l : List α) (a : α)
    (h : firstMaxBy key l = some a) : a ∈ l := by
  induction l generalizing a with
  | nil => simp [firstMaxBy] at h
  | cons x xs ih =>
    simp only [firstMaxBy] at h
    cases hx : firstMaxBy key xs with
    | none =>
      rw [hx] at h
      simp only [Option.some.injEq] at h
      simp [h]
    | some y =>
      rw [hx] at h
      by_cases hk : key x < key y
      · simp only [hk, if_pos] at h
        simp only [Option.some.injEq] at h
        exact List.mem_cons_of_mem x (ih a (by rw [hx, h]))
      · simp only [hk, if_neg, not_false_iff] at h
        simp only [Option.some.injEq] at h
        simp [h]

/-- The element `firstMaxBy` returns has maximal key. -/
theorem firstMaxBy_max {α : Type} (key : α → Nat) (l : List α) (a : α)
    (h : firstMaxBy key l = some a) : ∀ b ∈ l, key b ≤ key a := by
  induction l generalizing a with
  | nil => simp [firstMaxBy] at h
  | cons x xs ih =>
    intro b hb
    simp only [firstMaxBy] at h
    cases hx : firstMaxBy key xs with
    | none =>
      rw [hx] at h
      simp only [Option.some.injEq] at h
      rcases List.mem_cons.mp hb with hbx | hbxs
      · exact le_of_eq (by rw [hbx, h])
      · cases xs with
        | nil => simp at hbxs
        | cons z zs => exact absurd hx (by
            simp only [firstMaxBy]
            cases hz : firstMaxBy key zs with
            | none => simp
            | some w => by_cases hw : key z < key w <;> simp [hw])
    | some y =>
      rw [hx] at h
      by_cases hk : key x < key y
      · simp only [hk, if_pos] at h
        simp only [Option.some.injEq] at h
        rcases List.mem_cons.mp hb with hbx | hbxs
        · exact hbx ▸ le_of_lt (h ▸ hk)
        · exact ih a (by rw [hx, h]) b hbxs
      · simp only [hk, if_neg, not_false_iff] at h
        simp only [Option.some.injEq] at h
        rcases List.mem_cons.mp hb with hbx | hbxs
        · exact le_of_eq (by rw [hbx, h])
        · exact le_trans (ih y hx b hbxs) (h ▸ Nat.le_of_not_lt hk)

/-- On a nonempty list `firstMaxBy` returns something. -/
theorem firstMaxBy_cons_ne_none {α : Type} (key : α → Nat) (x : α)
    (xs : List α) : firstMaxBy key (x :: xs) ≠ none := by
  simp only [firstMaxBy]
  cases h : firstMaxBy key xs with
  | none => simp
  | some y => by_cases hk : key x < key y <;> simp [hk]

/-- On `l1 ++ f :: l2`, when nothing in `l1` satisfies `p` and `f` does,
`find?` returns `f` — the first-match semantics of `Array.prototype.find`. -/
theorem find?_first_qualifying {α : Type} (p : α → Bool) (l1 l2 : List α)
    (f : α) (h2 : p f = true) :
    (∀ g ∈ l1, p g = false) → (l1 ++ f :: l2).find? p = some f := by
  induction l1 with
  | nil =>
    intro _
    simp [List.find?_cons_of_pos, h2]
  | cons x xs ih =>
    intro h1
    rw [List.cons_append, List.find?_cons_of_neg]
    · exact ih (fun g hg => h1 g (List.mem_cons_of_mem x hg))
    · simp [h1 x (List.mem_cons_self x xs)]

/-!
Claim theorems about the variant selector.
-/

/-- C5: for every catalog containing a qualifying combined variant
(container mp4/webm, height 720, size within cap), `selectFormat`
returns `Combined` with exactly the first such descriptor in catalog
order — here the catalog is split as `l1 ++ f :: l2` with nothing in
`l1` qualifying, and `l2` may contain further qualifying descriptors. -/
theorem select_combined_first_wins (maxSize : Nat) (l1 l2 : List Fmt)
    (f : Fmt) (h1 : ∀ g ∈ l1, combinedOk maxSize g = false)
    (h2 : combinedOk maxSize f = true) :
    selectFormat maxSize (l1 ++ f :: l2) = .Combined f := by
  have h := find?_first_qualifying (combinedOk maxSize) l1 l2 f h2 h1
  simp [selectFormat, h]

/-- Witness for C5: two qualifying combined descriptors; the first one
in catalog order is selected. -/
theorem select_combined_first_wins_witness :
    selectFormat MAX_SIZE [fmtCombinedA, fmtCombinedB] =
      .Combined fmtCombinedA :=
  select_combined_first_wins MAX_SIZE [] [fmtCombinedB] fmtCombinedA
    (by intro g hg; simp at hg) (by decide)

/-- C9: the selector never returns a stream-less descriptor: a
`Combined` result has both streams, the video component of a
`SplitPair` has video, and the audio component has audio (in the code's
terms, the respective codec fields differ from `'none'`). -/
theorem select_streams_present (maxSize : Nat) (formats : List Fmt) :
    (∀ f, selectFormat maxSize formats = .Combined f →
      hasAudioF f = true ∧ hasVideoF f = true) ∧
    (∀ v a, selectFormat maxSize formats = .SplitPair v a →
      hasVideoF v = true ∧ hasAudioF a = true) := by
  constructor
  · intro f hf
    unfold selectFormat at hf
    cases hc : formats.find? (combinedOk maxSize) with
    | none =>
      rw [hc] at hf
      cases hfv : formats.find? (videoOnlyOk maxSize) with
      | none => rw [hfv] at hf; simp at hf
      | some v1 =>
        rw [hfv] at hf
        cases hfa : firstMaxBy audioRank (formats.filter (audioOk maxSize)) with
        | none => rw [hfa] at hf; simp at hf
        | some a1 => rw [hfa] at hf; simp at hf
    | some c =>
      rw [hc] at hf
      simp only [SelectionResult.Combined.injEq] at hf
      have hq := List.find?_some hc
      subst hf
      simp only [combinedOk, combinedBase, Bool.and_eq_true] at hq
      exact ⟨by simp [hasAudioF, hq.1.1.2], by simp [hasVideoF, hq.1.2]⟩
  · intro v a hf
    unfold selectFormat at hf
    cases hc : formats.find? (combinedOk maxSize) with
    | some c => rw [hc] at hf; simp at hf
    | none =>
      rw [hc] at hf
      cases hfv : formats.find? (videoOnlyOk maxSize) with
      | none => rw [hfv] at hf; simp at hf
      | some v1 =>
        rw [hfv] at hf
        cases hfa : firstMaxBy audioRank (formats.filter (audioOk maxSize)) with
        | none => rw [hfa] at hf; simp at hf
        | some a1 =>
          rw [hfa] at hf
          simp only [SelectionResult.SplitPair.injEq] at hf
          obtain ⟨hfv1, hfa1⟩ := hf
          subst hfv1; subst hfa1
          constructor
          · have hq := List.find?_some hfv
            simp only [videoOnlyOk, videoOnlyBase, Bool.and_eq_true] at hq
            simp [hasVideoF, hq.1.2]
          · have hm := firstMaxBy_mem audioRank _ _ hfa
            have hq := (List.mem_filter.mp hm).2
            simp only [audioOk, audioBase, Bool.and_eq_true] at hq
            simp [hasAudioF, hq.1.1.1]

/-- Witness for C9: applied to a one-element catalog whose combined
descriptor is selected. -/
theorem select_streams_present_witness :
    hasAudioF fmtCombinedA = true ∧ hasVideoF fmtCombinedA = true :=
  (select_streams_present MAX_SIZE [fmtCombinedA]).1 fmtCombinedA (by decide)

/-- C6: for every catalog with no qualifying combined variant but a
qualifying video-only variant and at least one qualifying audio-only
variant, `selectFormat` returns a `SplitPair` whose audio component
qualifies and has maximal `audioRank` (`abr || bitrate || 0`, so a
missing bitrate counts as 0) among all qualifying audio candidates. -/
theorem select_split_best_audio (maxSize : Nat) (formats : List Fmt)
    (hc : ∀ f ∈ formats, combinedOk maxSize f = false)
    (hv : ∃ v ∈ formats, videoOnlyOk maxSize v = true)
    (ha : ∃ b ∈ formats, audioOk maxSize b = true) :
    ∃ v a, selectFormat maxSize formats = .SplitPair v a ∧
      audioOk maxSize a = true ∧
      ∀ b ∈ formats, audioOk maxSize b = true →
        audioRank b ≤ audioRank a := by
  have hfc : formats.find? (combinedOk maxSize) = none :=
    List.find?_eq_none.mpr (fun x hx => by simp [hc x hx])
  obtain ⟨v0, hv0m, hv0⟩ := hv
  obtain ⟨b0, hb0m, hb0⟩ := ha
  have hb0f : b0 ∈ formats.filter (audioOk maxSize) :=
    List.mem_filter.mpr ⟨hb0m, hb0⟩
  cases hfv : formats.find? (videoOnlyOk maxSize) with
  | none =>
    exact absurd hv0 (by simpa using List.find?_eq_none.mp hfv v0 hv0m)
  | some v1 =>
    cases hfa : firstMaxBy audioRank (formats.filter (audioOk maxSize)) with
    | none =>
      cases hl : formats.filter (audioOk maxSize) with
      | nil => rw [hl] at hb0f; simp at hb0f
      | cons z zs =>
        rw [hl] at hfa
        exact absurd hfa (firstMaxBy_cons_ne_none _ z zs)
    | some a1 =>
      refine ⟨v1, a1, ?_, ?_, ?_⟩
      · simp [selectFormat, hfc, hfv, hfa]
      · exact (List.mem_filter.mp (firstMaxBy_mem audioRank _ _ hfa)).2
      · intro b hbm hbq
        exact firstMaxBy_max audioRank _ _ hfa b
          (List.mem_filter.mpr ⟨hbm, hbq⟩)

/-- Witness for C6: a catalog with one video-only variant and audio
candidates at ranks 64, 128 and 256. -/
theorem select_split_best_audio_witness :
    ∃ v a, selectFormat MAX_SIZE
        [fmtVideoOnly, fmtAudio64, fmtAudio128, fmtAudio256] =
          .SplitPair v a ∧
      audioOk MAX_SIZE a = true ∧
      ∀ b ∈ [fmtVideoOnly, fmtAudio64, fmtAudio128, fmtAudio256],
        audioOk MAX_SIZE b = true → audioRank b ≤ audioRank a :=
  select_split_best_audio MAX_SIZE
    [fmtVideoOnly, fmtAudio64, fmtAudio128, fmtAudio256]
    (by decide) ⟨fmtVideoOnly, by decide, by decide⟩
    ⟨fmtAudio256, by decide, by decide⟩

/-- Counterexample to C1: a combined descriptor with entirely unknown
size is selected under the enforced cap `MAX_SIZE` — the code computes
`(filesize || filesize_approx) || 0 = 0 ≤ MAX_SIZE`, so an unknown size
satisfies the cap rather than failing it. -/
theorem select_picks_unknown_size_under_cap :
    fmtUnknownSize.filesize = none ∧
    fmtUnknownSize.filesize_approx = none ∧
    selectFormat MAX_SIZE [fmtUnknownSize] = .Combined fmtUnknownSize :=
  ⟨rfl, rfl, by decide⟩

/-- C1 (amended): a descriptor whose `filesize` and `filesize_approx`
are both unknown has effective size 0, so it satisfies every size cap;
the size conjunct of each selection predicate is vacuous for it and the
cap never excludes it. -/
theorem unknown_size_passes_cap (maxSize : Nat) (f : Fmt)
    (h1 : f.filesize = none) (h2 : f.filesize_approx = none) :
    effSize f = 0 ∧ sizeOk maxSize f = true ∧
    combinedOk maxSize f = combinedBase f ∧
    videoOnlyOk maxSize f = videoOnlyBase f ∧
    audioOk maxSize f = audioBase f := by
  have he : effSize f = 0 := by simp [effSize, jsOrNat, h1, h2]
  have hs : sizeOk maxSize f = true := by simp [sizeOk, he]
  exact ⟨he, hs, by simp [combinedOk, hs], by simp [videoOnlyOk, hs],
    by simp [audioOk, hs]⟩

/-- Witness for the amended C1, at the unknown-size descriptor and the
configured cap. -/
theorem unknown_size_passes_cap_witness :
    effSize fmtUnknownSize = 0 ∧ sizeOk MAX_SIZE fmtUnknownSize = true ∧
    combinedOk MAX_SIZE fmtUnknownSize = combinedBase fmtUnknownSize ∧
    videoOnlyOk MAX_SIZE fmtUnknownSize = videoOnlyBase fmtUnknownSize ∧
    audioOk MAX_SIZE fmtUnknownSize = audioBase fmtUnknownSize :=
  unknown_size_passes_cap MAX_SIZE fmtUnknownSize rfl rfl

/-!
Filesystem lemmas.
-/

/-- After `cleanupFile p`, no file exists at `p`. -/
theorem fsHas_fsUnlink_self (fs : FS) (p : String) :
    fsHas (fsUnlink fs p) p = false := by
  rw [Bool.eq_false_iff]
  intro h
  rw [fsHas, List.any_eq_true] at h
  obtain ⟨e, he, heq⟩ := h
  simp only [fsUnlink] at he
  have h1 : e.1 ≠ p := by simpa using (List.mem_filter.mp he).2
  exact h1 (by simpa using heq)

/-- Deleting one path cannot make another absent path appear. -/
theorem fsHas_fsUnlink_of_not (fs : FS) (p q : String)
    (h : fsHas fs q = false) : fsHas (fsUnlink fs p) q = false := by
  rw [Bool.eq_false_iff]
  intro hq
  rw [fsHas, List.any_eq_true] at hq
  obtain ⟨e, he, heq⟩ := hq
  simp only [fsUnlink] at he
  have hm := (List.mem_filter.mp he).1
  rw [Bool.eq_false_iff] at h
  exact h (by rw [fsHas, List.any_eq_true]; exact ⟨e, hm, heq⟩)

/-- Reading the size of a just-written file returns the written size. -/
theorem fsStat_fsWrite_self (fs : FS) (p : String) (n : Nat) :
    fsStat (fsWrite fs p n) p = some n := by
  rw [fsStat, fsWrite, List.find?_cons_of_pos]
  · rfl
  · simp

/-- The `finally` block removes all three recorded paths, whatever the
filesystem state was. -/
theorem cleanupSplit_clears (fs : FS) (t : String) (v a : Fmt) :
    fsHas (cleanupSplit fs t v a) (videoPartPath t v) = false ∧
    fsHas (cleanupSplit fs t v a) (audioPartPath t a) = false ∧
    fsHas (cleanupSplit fs t v a) (mergedOutputPath t) = false := by
  simp only [cleanupSplit]
  exact ⟨fsHas_fsUnlink_of_not _ _ _ (fsHas_fsUnlink_of_not _ _ _
      (fsHas_fsUnlink_self fs _)),
    fsHas_fsUnlink_of_not _ _ _ (fsHas_fsUnlink_self _ _),
    fsHas_fsUnlink_self _ _⟩

/-!
Claim theorems about the single-video pipeline.
-/

/-- C2: in every split-pair run in which both downloads succeed and the
merge step fails, the pipeline returns the download-or-merge error
notice and no file remains at the recorded video-part, audio-part or
merged-output paths — the `finally` cleanup ran on this exit path. -/
theorem merge_failure_cleans_temp_paths (env : Env) (safeTitle : String)
    (formats : List Fmt) (fs : FS) (v a : Fmt)
    (hsel : selectFormat MAX_SIZE formats = .SplitPair v a)
    (hv : env.videoDlOk = true) (ha : env.audioDlOk = true)
    (hm : env.mergeOk = false) :
    (handleSingleVideo env safeTitle formats fs).1 =
      .downloadOrMergeError ∧
    fsHas (handleSingleVideo env safeTitle formats fs).2
      (videoPartPath safeTitle v) = false ∧
    fsHas (handleSingleVideo env safeTitle formats fs).2
      (audioPartPath safeTitle a) = false ∧
    fsHas (handleSingleVideo env safeTitle formats fs).2
      (mergedOutputPath safeTitle) = false := by
  have hrun : handleSingleVideo env safeTitle formats fs =
      (.downloadOrMergeError,
        cleanupSplit (fsWrite (fsWrite fs (videoPartPath safeTitle v)
          env.videoPartSize) (audioPartPath safeTitle a)
          env.audioPartSize) safeTitle v a) := by
    simp [handleSingleVideo, hsel, hv, ha, hm]
  rw [hrun]
  have h := cleanupSplit_clears (fsWrite (fsWrite fs
    (videoPartPath safeTitle v) env.videoPartSize)
    (audioPartPath safeTitle a) env.audioPartSize) safeTitle v a
  exact ⟨rfl, h.1, h.2.1, h.2.2⟩

/-- Witness catalog for the split-pair branch. -/
def splitCatalog : List Fmt :=
  [fmtVideoOnly, fmtAudio64, fmtAudio128, fmtAudio256]

/-- Oracle in which both downloads succeed and the merge fails. -/
def envMergeFail : Env := ⟨true, 0, true, 1000, true, 1000, false, 0⟩

/-- Witness for C2: a concrete merge-failure run leaves none of the
three recorded paths behind. -/
theorem merge_failure_cleans_temp_paths_witness :
    (handleSingleVideo envMergeFail "video" splitCatalog []).1 =
      .downloadOrMergeError ∧
    fsHas (handleSingleVideo envMergeFail "video" splitCatalog []).2
      (videoPartPath "video" fmtVideoOnly) = false ∧
    fsHas (handleSingleVideo envMergeFail "video" splitCatalog []).2
      (audioPartPath "video" fmtAudio256) = false ∧
    fsHas (handleSingleVideo envMergeFail "video" splitCatalog []).2
      (mergedOutputPath "video") = false :=
  merge_failure_cleans_temp_paths envMergeFail "video" splitCatalog []
    fmtVideoOnly fmtAudio256 (by decide) rfl rfl rfl

/-- C3: whenever the acquired (combined branch) or merged (split
branch) artifact's on-disk size strictly exceeds `MAX_SIZE`, delivery is
not invoked, the oversize notice — distinct from the
download-or-merge-error notice — is produced, and the temporary files
are still cleaned up. -/
theorem oversize_blocks_delivery :
    (∀ (env : Env) (t : String) (formats : List Fmt) (fs : FS) (c : Fmt),
      selectFormat MAX_SIZE formats = .Combined c →
      env.combinedDlOk = true → env.combinedDiskSize > MAX_SIZE →
      (handleSingleVideo env t formats fs).1 = .oversize ∧
      (∀ p, (handleSingleVideo env t formats fs).1 ≠ .delivered p) ∧
      (handleSingleVideo env t formats fs).1 ≠ .downloadOrMergeError ∧
      fsHas (handleSingleVideo env t formats fs).2
        (combinedOutputPath t c) = false) ∧
    (∀ (env : Env) (t : String) (formats : List Fmt) (fs : FS) (v a : Fmt),
      selectFormat MAX_SIZE formats = .SplitPair v a →
      env.videoDlOk = true → env.audioDlOk = true → env.mergeOk = true →
      env.mergedDiskSize > MAX_SIZE →
      (handleSingleVideo env t formats fs).1 = .oversize ∧
      (∀ p, (handleSingleVideo env t formats fs).1 ≠ .delivered p) ∧
      (handleSingleVideo env t formats fs).1 ≠ .downloadOrMergeError ∧
      fsHas (handleSingleVideo env t formats fs).2
        (videoPartPath t v) = false ∧
      fsHas (handleSingleVideo env t formats fs).2
        (audioPartPath t a) = false ∧
      fsHas (handleSingleVideo env t formats fs).2
        (mergedOutputPath t) = false) := by
  constructor
  · intro env t formats fs c hsel hdl hgt
    have hrun : handleSingleVideo env t formats fs =
        (.oversize, fsUnlink (fsWrite fs (combinedOutputPath t c)
          env.combinedDiskSize) (combinedOutputPath t c)) := by
      simp [handleSingleVideo, hsel, hdl, fsStat_fsWrite_self, hgt]
    rw [hrun]
    exact ⟨rfl, fun p => by simp, by simp, fsHas_fsUnlink_self _ _⟩
  · intro env t formats fs v a hsel hv ha hm hgt
    have hrun : handleSingleVideo env t formats fs =
        (.oversize, cleanupSplit (fsWrite (fsWrite (fsWrite fs
          (videoPartPath t v) env.videoPartSize) (audioPartPath t a)
          env.audioPartSize) (mergedOutputPath t) env.mergedDiskSize)
          t v a) := by
      simp [handleSingleVideo, hsel, hv, ha, hm, fsStat_fsWrite_self, hgt]
    rw [hrun]
    have h := cleanupSplit_clears (fsWrite (fsWrite (fsWrite fs
      (videoPartPath t v) env.videoPartSize) (audioPartPath t a)
      env.audioPartSize) (mergedOutputPath t) env.mergedDiskSize) t v a
    exact ⟨rfl, fun p => by simp, by simp, h.1, h.2.1, h.2.2⟩

/-- Oracle producing an oversize merged artifact. -/
def envSplitOver : Env := ⟨true, 0, true, 1000, true, 1000, true, MAX_SIZE + 1⟩

/-- Witness for C3, at a concrete oversize merged run. -/
theorem oversize_blocks_delivery_witness :
    (handleSingleVideo envSplitOver "video" splitCatalog []).1 =
      .oversize ∧
    (∀ p, (handleSingleVideo envSplitOver "video" splitCatalog []).1 ≠
      .delivered p) ∧
    (handleSingleVideo envSplitOver "video" splitCatalog []).1 ≠
      .downloadOrMergeError ∧
    fsHas (handleSingleVideo envSplitOver "video" splitCatalog []).2
      (videoPartPath "video" fmtVideoOnly) = false ∧
    fsHas (handleSingleVideo envSplitOver "video" splitCatalog []).2
      (audioPartPath "video" fmtAudio256) = false ∧
    fsHas (handleSingleVideo envSplitOver "video" splitCatalog []).2
      (mergedOutputPath "video") = false :=
  oversize_blocks_delivery.2 envSplitOver "video" splitCatalog []
    fmtVideoOnly fmtAudio256 (by decide) rfl rfl rfl (by decide)

/-- C10: the size gate is strict: an artifact whose on-disk size is
exactly `MAX_SIZE` is delivered — for the combined download, for the
merged output, and for the playlist zip. -/
theorem exact_cap_size_is_delivered :
    (∀ (env : Env) (t : String) (formats : List Fmt) (fs : FS) (c : Fmt),
      selectFormat MAX_SIZE formats = .Combined c →
      env.combinedDlOk = true → env.combinedDiskSize = MAX_SIZE →
      (handleSingleVideo env t formats fs).1 =
        .delivered (combinedOutputPath t c)) ∧
    (∀ (env : Env) (t : String) (formats : List Fmt) (fs : FS) (v a : Fmt),
      selectFormat MAX_SIZE formats = .SplitPair v a →
      env.videoDlOk = true → env.audioDlOk = true → env.mergeOk = true →
      env.mergedDiskSize = MAX_SIZE →
      (handleSingleVideo env t formats fs).1 =
        .delivered (mergedOutputPath t)) ∧
    (∀ (items : List ItemEnv) (t : String) (zipOk : Bool) (zipSize : Nat),
      survivors items ≠ [] → zipOk = true → zipSize = MAX_SIZE →
      handlePlaylist items t zipOk zipSize = .sentArchive (zipPath t)) := by
  refine ⟨?_, ?_, ?_⟩
  · intro env t formats fs c hsel hdl hsz
    simp [handleSingleVideo, hsel, hdl, fsStat_fsWrite_self, hsz]
  · intro env t formats fs v a hsel hv ha hm hsz
    simp [handleSingleVideo, hsel, hv, ha, hm, fsStat_fsWrite_self, hsz]
  · intro items t zipOk zipSize hs hz hsz
    have hlen : (survivors items).length ≠ 0 := by
      simpa using fun h => hs (List.length_eq_zero.mp h)
    subst hz; subst hsz
    simp [handlePlaylist, hlen]

/-- Oracle delivering a combined artifact of exactly the cap size. -/
def envCombinedExact : Env := ⟨true, MAX_SIZE, true, 0, true, 0, true, 0⟩

/-- A playlist item that survives via its combined 720p format. -/
def itemCombined : ItemEnv := ⟨"video", [fmtCombinedA], true, true, true⟩

/-- Witness for C10: exact-cap combined artifact and exact-cap zip are
both delivered. -/
theorem exact_cap_size_is_delivered_witness :
    (handleSingleVideo envCombinedExact "video" [fmtCombinedA] []).1 =
      .delivered (combinedOutputPath "video" fmtCombinedA) ∧
    handlePlaylist [itemCombined] "playlist" true MAX_SIZE =
      .sentArchive (zipPath "playlist") :=
  ⟨exact_cap_size_is_delivered.1 envCombinedExact "video" [fmtCombinedA]
      [] fmtCombinedA (by decide) rfl rfl,
    exact_cap_size_is_delivered.2.2 [itemCombined] "playlist" true
      MAX_SIZE (by decide) rfl rfl⟩

/-!
Claim theorems about the playlist pipeline.
-/

/-- C4: the batch as a whole fails — the total-failure notification,
which never delivers an archive — exactly when zero attempted items
survive; and a single failing item (selection, download or merge
failure, i.e. `processItem` yields `none`) is merely skipped: the
surviving files are the same as if the item were not in the list, so
the batch continues with the following items. -/
theorem batch_skips_failures_total_iff :
    (∀ (items : List ItemEnv) (t : String) (zipOk : Bool) (zipSize : Nat),
      (handlePlaylist items t zipOk zipSize = .totalFailure ↔
        survivors items = []) ∧
      (handlePlaylist items t zipOk zipSize = .totalFailure →
        ∀ p, handlePlaylist items t zipOk zipSize ≠ .sentArchive p)) ∧
    (∀ (l1 : List ItemEnv) (b : ItemEnv) (l2 : List ItemEnv),
      (l1 ++ b :: l2).length ≤ MAX_PLAYLIST_VIDEOS →
      processItem b = none →
      survivors (l1 ++ b :: l2) = survivors (l1 ++ l2)) := by
  constructor
  · intro items t zipOk zipSize
    constructor
    · by_cases h : (survivors items).length = 0
      · simp [handlePlaylist, h, List.length_eq_zero.mp h]
      · have hne : survivors items ≠ [] := by
          intro hc
          exact h (by simp [hc])
        cases zipOk with
        | false => simp [handlePlaylist, h, hne]
        | true =>
          by_cases hz : zipSize > MAX_SIZE <;>
            simp [handlePlaylist, h, hz, hne]
    · intro h p
      rw [h]
      simp
  · intro l1 b l2 hlen hb
    have hlen2 : (l1 ++ l2).length ≤ MAX_PLAYLIST_VIDEOS := by
      simp only [List.length_append, List.length_cons] at hlen ⊢
      omega
    rw [survivors, survivors, attemptedItems, attemptedItems,
      List.take_of_length_le hlen, List.take_of_length_le hlen2,
      List.filterMap_append, List.filterMap_append,
      List.filterMap_cons_none hb]

/-- A playlist item that fails (its metadata fetch throws). -/
def itemFetchFail : ItemEnv := ⟨"video", [fmtCombinedA], false, true, true⟩

/-- Witness for C4: a batch containing one failing and one surviving
item does not fail as a whole, and the failing item is skipped without
affecting the survivors. -/
theorem batch_skips_failures_total_iff_witness :
    (handlePlaylist [itemFetchFail, itemCombined] "playlist" true 0 =
      .totalFailure ↔ survivors [itemFetchFail, itemCombined] = []) ∧
    survivors [itemFetchFail, itemCombined] = survivors [itemCombined] :=
  ⟨(batch_skips_failures_total_iff.1 [itemFetchFail, itemCombined]
      "playlist" true 0).1,
    batch_skips_failures_total_iff.2 [] itemFetchFail [itemCombined]
      (by decide) (by decide)⟩

/-- C7: at most `MAX_PLAYLIST_VIDEOS` playlist entries are ever
attempted — a 15-entry playlist yields exactly 10 attempts, the
attempted entries are exactly the first 10 in catalog order, and every
entry at an index at or beyond the cap is never attempted. -/
theorem batch_cap_bounds_attempts (items : List ItemEnv) :
    (items.length = 15 → (attemptedItems items).length = 10) ∧
    (∀ i, i < MAX_PLAYLIST_VIDEOS → (attemptedItems items)[i]? = items[i]?) ∧
    (∀ i, MAX_PLAYLIST_VIDEOS ≤ i → (attemptedItems items)[i]? = none) := by
  refine ⟨?_, ?_, ?_⟩
  · intro h
    simp [attemptedItems, MAX_PLAYLIST_VIDEOS, h]
  · intro i hi
    rw [attemptedItems, List.getElem?_take_of_lt hi]
  · intro i hi
    apply List.getElem?_eq_none
    exact le_trans (List.length_take_le _ _) hi

/-- Witness for C7: a concrete 15-entry playlist is truncated to
exactly 10 attempts and index 10 is not attempted. -/
theorem batch_cap_bounds_attempts_witness :
    (attemptedItems (List.replicate 15 itemCombined)).length = 10 ∧
    (attemptedItems (List.replicate 15 itemCombined))[10]? = none :=
  ⟨(batch_cap_bounds_attempts (List.replicate 15 itemCombined)).1
      (by simp),
    (batch_cap_bounds_attempts (List.replicate 15 itemCombined)).2.2 10
      (by decide)⟩

/-!
Claim theorems about request path isolation.
-/

/-- Counterexample to C8: two distinct in-flight requests — different
chats, same video title — derive exactly the same output path, so their
written path sets are equal and share a member rather than being
disjoint. -/
theorem distinct_requests_share_paths :
    (⟨1, "video"⟩ : Request) ≠ (⟨2, "video"⟩ : Request) ∧
    requestWrittenPaths ⟨1, "video"⟩ [fmtCombinedA] =
      requestWrittenPaths ⟨2, "video"⟩ [fmtCombinedA] ∧
    combinedOutputPath "video" fmtCombinedA ∈
      requestWrittenPaths ⟨1, "video"⟩ [fmtCombinedA] ∧
    combinedOutputPath "video" fmtCombinedA ∈
      requestWrittenPaths ⟨2, "video"⟩ [fmtCombinedA] := by
  refine ⟨by simp, rfl, by decide, by decide⟩

/-- C8 (amended): the paths a single-video pipeline writes are a
function of the sanitized title and the catalog alone — nothing
request-specific enters them — so two in-flight requests with the same
sanitized title derive exactly the same paths, and disjointness holds
only when the derived file names differ. -/
theorem same_title_same_paths (r1 r2 : Request) (formats : List Fmt)
    (h : r1.safeTitle = r2.safeTitle) :
    requestWrittenPaths r1 formats = requestWrittenPaths r2 formats := by
  simp [requestWrittenPaths, h]

/-- Witness for the amended C8, at two concrete same-title requests. -/
theorem same_title_same_paths_witness :
    requestWrittenPaths ⟨1, "video"⟩ [fmtCombinedA] =
      requestWrittenPaths ⟨2, "video"⟩ [fmtCombinedA] :=
  same_title_same_paths ⟨1, "video"⟩ ⟨2, "video"⟩ [fmtCombinedA] rfl
